import Mathlib

/-!
Verification of `ml-locale-translate-tool` (`src/main.rs`), a tool that
translates a JSON locale document into every language supported by a
translation service.  The development shallowly embeds the core of the
program: the recursive JSON traversal `translate_json_object`
(main.rs:157-199), the retry loop of `create_translation_file`
(main.rs:125-144), the output-file write (main.rs:146-152), and the
language filtering, task spawning and joining in `main` (main.rs:60-110).
-/

/-- The JSON data model (`serde_json::Value`): null, boolean, number,
string, array, and object.  Objects are modelled as association lists of
key/value pairs in iteration order; numbers are modelled abstractly as
integers since the program never inspects or alters them. -/
inductive Value where
  | null : Value
  | bool (b : Bool) : Value
  | num (n : Int) : Value
  | str (s : String) : Value
  | arr (elems : List Value) : Value
  | obj (entries : List (String × Value)) : Value
deriving Repr

/-- Errors surfaced by the translation service (`translate::Error`). -/
inductive TranslateError where
  | service (msg : String) : TranslateError
deriving Repr, DecidableEq

/-- The `translate_text` capability of the AWS client: given source
language, target language and text it returns translated text or fails. -/
abbrev Service := String → String → String → Except TranslateError String

mutual

/-- Embedding of `translate_json_object` (main.rs:157-199).
`Value::Object(obj)` recurses into every entry in order, rebuilding the
object and propagating the first error (`return Err(err)`); an empty
string short-circuits to `Ok(Value::String(""))` without calling the
service; a non-empty string is sent to the service via `translate_text`
and the translated text substituted; every other value (`_` arm:
null, boolean, number, array) is returned as-is. -/
def translate_json_object (svc : Service) (src tgt : String) : Value → Except TranslateError Value
  | Value.obj entries =>
    match translateEntries svc src tgt entries with
    | Except.ok newObj => Except.ok (Value.obj newObj)
    | Except.error e => Except.error e
  | Value.str s =>
    if s = "" then Except.ok (Value.str "")
    else
      match svc src tgt s with
      | Except.ok translatedText => Except.ok (Value.str translatedText)
      | Except.error e => Except.error e
  | v => Except.ok v

/-- The `for (k, v) in obj` loop inside the `Value::Object` arm of
`translate_json_object` (main.rs:167-181): each value is translated and
inserted under its key; the first child error aborts the loop and is
returned, discarding the entries not yet processed. -/
def translateEntries (svc : Service) (src tgt : String) : List (String × Value) → Except TranslateError (List (String × Value))
  | [] => Except.ok []
  | (k, v) :: rest =>
    match translate_json_object svc src tgt v with
    | Except.ok translatedValue =>
      match translateEntries svc src tgt rest with
      | Except.ok newRest => Except.ok ((k, translatedValue) :: newRest)
      | Except.error e => Except.error e
    | Except.error e => Except.error e

end

mutual

/-- The sequence of `translate_text` service calls (source language,
target language, text) issued by `translate_json_object` on a value, in
order, following the same control flow: nothing for empty strings and
non-string scalars or arrays, one call per non-empty string leaf reached,
and no calls for entries after the first failing one. -/
def translateCalls (svc : Service) (src tgt : String) : Value → List (String × String × String)
  | Value.obj entries => callsEntries svc src tgt entries
  | Value.str s => if s = "" then [] else [(src, tgt, s)]
  | _ => []

/-- Service calls issued by the object-entry loop: the calls of the head
entry, then — only if the head entry succeeded — the calls of the rest. -/
def callsEntries (svc : Service) (src tgt : String) : List (String × Value) → List (String × String × String)
  | [] => []
  | (_, v) :: rest =>
    translateCalls svc src tgt v ++
      (match translate_json_object svc src tgt v with
       | Except.ok _ => callsEntries svc src tgt rest
       | Except.error _ => [])

end

/-- The retry loop of `create_translation_file` (main.rs:125-144).  State
before an iteration: `retries` failures have occurred so far and the next
sleep would last `delay` seconds; `fuel` is `max_retries - retries`, so
the guard `retries < max_retries` of the `Err(_) if retries < max_retries`
arm holds exactly when `fuel > 0`.  `attempt n` is the outcome of the
translation attempt made after `n` failures.  Returns the final outcome,
the total number of attempts made, and the list of sleep delays (seconds)
in order: on `Ok` the loop breaks; on `Err` with budget left it sleeps
`delay`, increments `retries`, doubles `delay` and retries; on `Err` with
the budget exhausted it returns the error. -/
def retryLoop (attempt : Nat → Except TranslateError Value) : Nat → Nat → Nat → Except TranslateError Value × Nat × List Nat
  | retries, _, 0 =>
    match attempt retries with
    | Except.ok v => (Except.ok v, retries + 1, [])
    | Except.error e => (Except.error e, retries + 1, [])
  | retries, delay, fuel + 1 =>
    match attempt retries with
    | Except.ok v => (Except.ok v, retries + 1, [])
    | Except.error _ =>
      let r := retryLoop attempt (retries + 1) (delay * 2) fuel
      (r.1, r.2.1, delay :: r.2.2)

/-- The `max_retries` constant of `create_translation_file` (main.rs:127). -/
def max_retries : Nat := 5

/-- Embedding of the translation phase of `create_translation_file`
(main.rs:125-144) applied to the parsed document `jsonValue`: the retry
loop starts with `retries = 0` and `delay = 1` second, and every attempt
translates `json_value.clone()` — a fresh clone of the originally parsed
document — against the service as it behaves on that attempt
(`svcSeq n` is the service behaviour on the attempt after `n` failures).
Returns the outcome, the number of attempts, and the sleeps performed. -/
def create_translation_file (svcSeq : Nat → Service) (src tgt : String) (jsonValue : Value) : Except TranslateError Value × Nat × List Nat :=
  retryLoop (fun n => translate_json_object (svcSeq n) src tgt jsonValue) 0 1 max_retries

/-- The output-file write of `create_translation_file` (main.rs:146-152),
modelled with the standard-library semantics of
`OpenOptions::new().write(true).create(true).open(...)` followed by
`write_all`: if the destination is absent it is created empty; the open
does not truncate, and `write_all` overwrites from offset 0, so any bytes
of a longer pre-existing file beyond the written content survive.
`prior` is the destination's prior content (`none` when absent) and the
result is the destination's content after the write. -/
def writeTranslationFile (prior : Option String) (content : String) : String :=
  match prior with
  | none => content
  | some old => content ++ old.drop content.length

/-- The language filtering of `main` (main.rs:67-80): the loop over the
codes reported by `list_languages` skips the `"auto"` sentinel and the
configured source language, and spawns one translation job for each
remaining code in order.  This is the list of target languages for which
a job is started. -/
def targetLanguages (sourceLanguageCode : String) (codes : List String) : List String :=
  codes.filter (fun c => !(c == "auto") && !(c == sourceLanguageCode))

/-- The completion count reported by `main` (main.rs:109):
`language_codes.len() - 2`, with the comment "remove one for auto, one
for source language".  (Natural subtraction; the Rust `usize`
subtraction would underflow for lists shorter than 2.) -/
def reportedCount (codes : List String) : Nat :=
  codes.length - 2

/-- The number of target languages actually processed: one job per
language surviving the `"auto"`/source filter. -/
def processedCount (sourceLanguageCode : String) (codes : List String) : Nat :=
  (targetLanguages sourceLanguageCode codes).length

/-- Errors that can abort the run in `main`: a failing service call
(the `list_languages` handshake) or a failing file operation
(`File::open` at main.rs:89). -/
inductive RunError where
  | service (msg : String) : RunError
  | io (msg : String) : RunError
deriving Repr, DecidableEq

/-- The join loop of `main` (main.rs:100-103):
`for handle in handles { handle.await??; }`.  Given the results of the
spawned jobs in spawn order, returns the loop's outcome together with the
number of handles actually awaited: each `Ok` moves to the next handle,
while the first `Err` is propagated by `?` immediately, returning from
`main` without awaiting the remaining handles. -/
def awaitAll : List (Except RunError Unit) → Except RunError Unit × Nat
  | [] => (Except.ok (), 0)
  | r :: rest =>
    match r with
    | Except.ok _ =>
      let (outcome, n) := awaitAll rest
      (outcome, n + 1)
    | Except.error e => (Except.error e, 1)

/-- The spawn loop of `main` (main.rs:67-98): iterate over the handshake
codes, skip `"auto"` and the source language, and for each remaining code
run `File::open(input_file)?` (main.rs:89) — whose failure aborts `main`
by `?` — before spawning the job.  `openFile` is the outcome of each
`File::open` call; returns the target languages for which a job was
spawned, or the aborting error. -/
def spawnLoop (sourceLanguageCode : String) (openFile : Except RunError Unit) : List String → Except RunError (List String)
  | [] => Except.ok []
  | c :: rest =>
    if c == "auto" then spawnLoop sourceLanguageCode openFile rest
    else if c == sourceLanguageCode then spawnLoop sourceLanguageCode openFile rest
    else
      match openFile with
      | Except.error e => Except.error e
      | Except.ok _ =>
        match spawnLoop sourceLanguageCode openFile rest with
        | Except.ok spawned => Except.ok (c :: spawned)
        | Except.error e => Except.error e

/-- The pre-job phase of `main` (main.rs:60-98): the `list_languages`
handshake (main.rs:60-63), whose failure is returned from `main`
immediately, followed by the spawn loop.  Returns the list of spawned
target languages or the error that aborted the run. -/
def mainPreJobPhase (handshake : Except RunError (List String)) (sourceLanguageCode : String) (openFile : Except RunError Unit) : Except RunError (List String) :=
  match handshake with
  | Except.error e => Except.error e
  | Except.ok codes => spawnLoop sourceLanguageCode openFile codes

/-! ## Supporting lemmas -/

mutual

/-- An identity-returning service leaves every value unchanged. -/
theorem translate_id_val (svc : Service) (hsvc : ∀ a b s, svc a b s = Except.ok s) (src tgt : String) : (v : Value) → translate_json_object svc src tgt v = Except.ok v
  | Value.null => rfl
  | Value.bool _ => rfl
  | Value.num _ => rfl
  | Value.arr _ => rfl
  | Value.str s => by
    by_cases h : s = ""
    · subst h; rfl
    · simp [translate_json_object, h, hsvc]
  | Value.obj entries => by
    simp [translate_json_object, translate_id_entries svc hsvc src tgt entries]

/-- An identity-returning service leaves every object entry unchanged. -/
theorem translate_id_entries (svc : Service) (hsvc : ∀ a b s, svc a b s = Except.ok s) (src tgt : String) : (es : List (String × Value)) → translateEntries svc src tgt es = Except.ok es
  | [] => rfl
  | (k, v) :: rest => by
    simp [translateEntries, translate_id_val svc hsvc src tgt v,
      translate_id_entries svc hsvc src tgt rest]

end

/-- When the retry loop finishes with a successful document, some attempt
produced that document. -/
theorem retryLoop_ok_attempt (attempt : Nat → Except TranslateError Value) : ∀ fuel retries delay w, (retryLoop attempt retries delay fuel).1 = Except.ok w → ∃ n, attempt n = Except.ok w
  | 0, retries, _, w, h => by
    revert h
    simp only [retryLoop]
    cases ha : attempt retries with
    | ok v => intro h; exact ⟨retries, by rw [ha]; exact congrArg Except.ok (by injection h)⟩
    | error e => intro h; exact absurd h (by simp)
  | fuel + 1, retries, delay, w, h => by
    revert h
    simp only [retryLoop]
    cases ha : attempt retries with
    | ok v => intro h; exact ⟨retries, by rw [ha]; exact congrArg Except.ok (by injection h)⟩
    | error e => intro h; exact retryLoop_ok_attempt attempt fuel (retries + 1) (delay * 2) w h

/-! ## Claims -/

/-- C1: translating any Document with an identity-returning translation
function yields the Document unchanged — same keys, same nesting,
non-string scalar leaves (number, boolean, null) unchanged by value, and
every string leaf replaced by the identical translated string. -/
theorem structure_preservation (svc : Service) (hsvc : ∀ a b s, svc a b s = Except.ok s) (src tgt : String) (d : Value) :
    translate_json_object svc src tgt d = Except.ok d :=
  translate_id_val svc hsvc src tgt d

/-- Witness for C1 at a concrete document and the literal identity
service. -/
theorem structure_preservation_witness :
    translate_json_object (fun _ _ s => Except.ok s) "en" "fr"
      (Value.obj [("a", Value.str "hello"), ("b", Value.obj [("c", Value.str ""), ("n", Value.num 3)]), ("ok", Value.bool true)]) =
    Except.ok (Value.obj [("a", Value.str "hello"), ("b", Value.obj [("c", Value.str ""), ("n", Value.num 3)]), ("ok", Value.bool true)]) :=
  structure_preservation (fun _ _ s => Except.ok s) (fun _ _ _ => rfl) "en" "fr" _

/-- C8: an empty string leaf short-circuits to the empty string without
any service call; a non-empty string leaf issues exactly the call
(sourceLang, targetLang, text) and the returned translated text is
substituted. -/
theorem empty_string_short_circuit (svc : Service) (src tgt s t : String)
    (hs : s ≠ "") (ht : svc src tgt s = Except.ok t) :
    translate_json_object svc src tgt (Value.str "") = Except.ok (Value.str "") ∧
    translateCalls svc src tgt (Value.str "") = [] ∧
    translate_json_object svc src tgt (Value.str s) = Except.ok (Value.str t) ∧
    translateCalls svc src tgt (Value.str s) = [(src, tgt, s)] := by
  refine ⟨rfl, rfl, ?_, ?_⟩ <;> simp [translate_json_object, translateCalls, hs, ht]

/-- Witness for C8: a concrete service translating "hello" to "bonjour". -/
theorem empty_string_short_circuit_witness :
    translate_json_object (fun _ _ s => Except.ok (if s = "hello" then "bonjour" else s)) "en" "fr" (Value.str "") = Except.ok (Value.str "") ∧
    translateCalls (fun _ _ s => Except.ok (if s = "hello" then "bonjour" else s)) "en" "fr" (Value.str "") = [] ∧
    translate_json_object (fun _ _ s => Except.ok (if s = "hello" then "bonjour" else s)) "en" "fr" (Value.str "hello") = Except.ok (Value.str "bonjour") ∧
    translateCalls (fun _ _ s => Except.ok (if s = "hello" then "bonjour" else s)) "en" "fr" (Value.str "hello") = [("en", "fr", "hello")] :=
  empty_string_short_circuit _ "en" "fr" "hello" "bonjour" (by decide) (by simp)

/-- C10: every array value falls into the pass-through arm of
`translate_json_object`: it is returned unchanged, its elements are not
recursed into, and no service call is made for any string inside it. -/
theorem arrays_pass_through (svc : Service) (src tgt : String) (elems : List Value) :
    translate_json_object svc src tgt (Value.arr elems) = Except.ok (Value.arr elems) ∧
    translateCalls svc src tgt (Value.arr elems) = [] :=
  ⟨rfl, rfl⟩

/-- If every entry of a prefix translates successfully and the next entry's
value fails, the whole entry loop fails with that error and the loop issues
no service call for the entries after the failing one. -/
theorem entries_first_failure (svc : Service) (src tgt k : String) (v : Value) (e : TranslateError) (post : List (String × Value))
    (hv : translate_json_object svc src tgt v = Except.error e) :
    ∀ pre pre', translateEntries svc src tgt pre = Except.ok pre' →
      translateEntries svc src tgt (pre ++ (k, v) :: post) = Except.error e ∧
      callsEntries svc src tgt (pre ++ (k, v) :: post) = callsEntries svc src tgt pre ++ translateCalls svc src tgt v
  | [], _, _ => by
    constructor
    · simp [translateEntries, hv]
    · simp [callsEntries, hv]
  | (k0, v0) :: pre0, pre', hpre => by
    revert hpre
    simp only [translateEntries]
    cases h0 : translate_json_object svc src tgt v0 with
    | error e0 => intro hpre; exact absurd hpre (by simp)
    | ok tv0 =>
      cases hrest : translateEntries svc src tgt pre0 with
      | error e1 => intro hpre; exact absurd hpre (by simp)
      | ok rest0 =>
        intro _
        have ih := entries_first_failure svc src tgt k v e post hv pre0 rest0 hrest
        constructor
        · simp only [List.cons_append, translateEntries, h0, List.append_eq, ih.1]
        · simp only [List.cons_append, callsEntries, h0, List.append_eq, ih.2, List.append_assoc]

/-- C4: the first failing leaf aborts the remainder of a traversal
attempt — the object containing it translates to that error, no further
service calls are made after the failing leaf, and no partially
translated Document is returned — and every retry attempt translates the
originally parsed Document afresh, so a successful retry outcome is the
translation of the original Document by one attempt's service. -/
theorem first_leaf_failure_aborts
    (svc : Service) (svcSeq : Nat → Service) (src tgt k : String) (v doc w : Value)
    (pre post pre' : List (String × Value)) (e : TranslateError)
    (hpre : translateEntries svc src tgt pre = Except.ok pre')
    (hv : translate_json_object svc src tgt v = Except.error e)
    (hok : (create_translation_file svcSeq src tgt doc).1 = Except.ok w) :
    translate_json_object svc src tgt (Value.obj (pre ++ (k, v) :: post)) = Except.error e ∧
    translateCalls svc src tgt (Value.obj (pre ++ (k, v) :: post)) =
      callsEntries svc src tgt pre ++ translateCalls svc src tgt v ∧
    ∃ n, translate_json_object (svcSeq n) src tgt doc = Except.ok w := by
  have h := entries_first_failure svc src tgt k v e post hv pre pre' hpre
  refine ⟨?_, ?_, ?_⟩
  · simp [translate_json_object, h.1]
  · simpa [translateCalls] using h.2
  · exact retryLoop_ok_attempt _ max_retries 0 1 w hok

/-- Witness for C4: a service failing on the leaf "y" aborts the object
traversal after the successful leaf "x", and a separate always-identity
service makes the retry succeed with the original document translated. -/
theorem first_leaf_failure_aborts_witness :
    translate_json_object (fun _ _ s => if s = "y" then Except.error (TranslateError.service "boom") else Except.ok s) "en" "fr"
      (Value.obj [("a", Value.str "x"), ("b", Value.str "y"), ("c", Value.str "z")]) = Except.error (TranslateError.service "boom") ∧
    translateCalls (fun _ _ s => if s = "y" then Except.error (TranslateError.service "boom") else Except.ok s) "en" "fr"
      (Value.obj [("a", Value.str "x"), ("b", Value.str "y"), ("c", Value.str "z")]) =
      callsEntries (fun _ _ s => if s = "y" then Except.error (TranslateError.service "boom") else Except.ok s) "en" "fr" [("a", Value.str "x")] ++
        translateCalls (fun _ _ s => if s = "y" then Except.error (TranslateError.service "boom") else Except.ok s) "en" "fr" (Value.str "y") ∧
    ∃ n, translate_json_object ((fun _ => fun _ _ s => Except.ok s : Nat → Service) n) "en" "fr" (Value.str "hi") = Except.ok (Value.str "hi") :=
  first_leaf_failure_aborts
    (fun _ _ s => if s = "y" then Except.error (TranslateError.service "boom") else Except.ok s)
    (fun _ => fun _ _ s => Except.ok s) "en" "fr" "b" (Value.str "y") (Value.str "hi") (Value.str "hi")
    [("a", Value.str "x")] [("c", Value.str "z")] [("a", Value.str "x")] (TranslateError.service "boom")
    (by simp [translateEntries, translate_json_object]) (by simp [translate_json_object]) rfl

/-- The sleeps performed by `fuel` consecutive failing iterations of the
retry loop when the first sleep lasts `delay`: each subsequent sleep
doubles. -/
def backoffDelays (delay : Nat) : Nat → List Nat
  | 0 => []
  | fuel + 1 => delay :: backoffDelays (delay * 2) fuel

/-- When every attempt fails, the retry loop makes one attempt per unit of
budget plus the final one, sleeps the doubling backoff delays, and returns
the error of the last attempt. -/
theorem retryLoop_all_fail (attempt : Nat → Except TranslateError Value) (errs : Nat → TranslateError)
    (hfail : ∀ n, attempt n = Except.error (errs n)) :
    ∀ fuel retries delay, retryLoop attempt retries delay fuel =
      (Except.error (errs (retries + fuel)), retries + fuel + 1, backoffDelays delay fuel)
  | 0, retries, delay => by simp [retryLoop, hfail retries, backoffDelays]
  | fuel + 1, retries, delay => by
    have ih := retryLoop_all_fail attempt errs hfail fuel (retries + 1) (delay * 2)
    simp only [retryLoop, hfail retries, ih, backoffDelays]
    have h : retries + 1 + fuel = retries + (fuel + 1) := by omega
    rw [h]

/-- C3: against a service whose translation fails on every attempt,
`create_translation_file` makes exactly 6 attempts (5 retries beyond the
first), sleeps between consecutive attempts for 1, 2, 4, 8 and 16
time-units, and surfaces the failure of the last attempt as a terminal
error. -/
theorem retry_exhaustion (svcSeq : Nat → Service) (src tgt : String) (doc : Value) (errs : Nat → TranslateError)
    (hfail : ∀ n, translate_json_object (svcSeq n) src tgt doc = Except.error (errs n)) :
    create_translation_file svcSeq src tgt doc = (Except.error (errs 5), 6, [1, 2, 4, 8, 16]) := by
  have h := retryLoop_all_fail (fun n => translate_json_object (svcSeq n) src tgt doc) errs hfail max_retries 0 1
  simpa [create_translation_file, max_retries, backoffDelays] using h

/-- Witness for C3: an always-failing service on a one-string document. -/
theorem retry_exhaustion_witness :
    create_translation_file (fun _ => fun _ _ _ => Except.error (TranslateError.service "boom")) "en" "fr" (Value.str "x") =
      (Except.error (TranslateError.service "boom"), 6, [1, 2, 4, 8, 16]) :=
  retry_exhaustion (fun _ => fun _ _ _ => Except.error (TranslateError.service "boom")) "en" "fr" (Value.str "x")
    (fun _ => TranslateError.service "boom") (fun _ => rfl)

/-- C5: the destination write does not truncate.  With prior destination
content "0123456789" and serialized document "ABCD", the destination
afterwards holds "ABCD456789" — the stale tail of the longer previous
file survives — not "ABCD" as the claim requires.  (The open options at
main.rs:147-150 set `write` and `create` but not `truncate`.) -/
theorem write_leaves_stale_bytes :
    writeTranslationFile (some "0123456789") "ABCD" = "ABCD456789" ∧
    writeTranslationFile (some "0123456789") "ABCD" ≠ "ABCD" ∧
    writeTranslationFile none "ABCD" = "ABCD" := by
  refine ⟨rfl, ?_, rfl⟩
  decide

/-- C6 counterexample: with two spawned jobs whose results are a failure
followed by a success, the join loop of `main` awaits only 1 of the 2
handles — the first `Err` is propagated by `?` before the second handle
is awaited — refuting that every unit of work is awaited before the
aggregate failure is reported. -/
theorem join_counterexample :
    (awaitAll [Except.error (RunError.service "job failed"), Except.ok ()]).2 = 1 ∧
    (awaitAll [Except.error (RunError.service "job failed"), Except.ok ()]).2 ≠
      [Except.error (RunError.service "job failed"), Except.ok ()].length := by
  refine ⟨rfl, ?_⟩
  decide

/-- C6 amended: the join loop awaits handles sequentially in spawn order;
when every job succeeds it awaits all of them and reports success, but it
stops at the first failing job, propagating that error immediately
without awaiting the handles spawned after it. -/
theorem join_awaits_until_first_failure (pre post : List (Except RunError Unit)) (e : RunError)
    (hpre : ∀ r ∈ pre, r = Except.ok ()) :
    awaitAll pre = (Except.ok (), pre.length) ∧
    awaitAll (pre ++ Except.error e :: post) = (Except.error e, pre.length + 1) := by
  induction pre with
  | nil => exact ⟨rfl, rfl⟩
  | cons r rest ih =>
    have hr : r = Except.ok () := hpre r (by simp)
    have hrest : ∀ x ∈ rest, x = Except.ok () := fun x hx => hpre x (by simp [hx])
    have ih2 := ih hrest
    subst hr
    constructor
    · simp [awaitAll, ih2.1]
    · simp [awaitAll, ih2.2]

/-- Witness for C6 amended: two successful jobs before a failing one,
with one job spawned after the failure. -/
theorem join_awaits_until_first_failure_witness :
    awaitAll [Except.ok (), Except.ok ()] = (Except.ok (), 2) ∧
    awaitAll ([Except.ok (), Except.ok ()] ++ Except.error (RunError.service "boom") :: [Except.ok ()]) =
      (Except.error (RunError.service "boom"), 3) := by
  have h := join_awaits_until_first_failure [Except.ok (), Except.ok ()] [Except.ok ()]
    (RunError.service "boom")
    (by intro r hr; simp only [List.mem_cons, List.not_mem_nil, or_false] at hr
        rcases hr with h | h <;> exact h)
  simpa using h

/-- C7 counterexample: with a successful handshake reporting ["fr"] and
source "en", a failing `File::open` of the input document aborts the run
before any job is spawned — so the run can fail pre-job for a reason
other than the handshake, refuting the claim. -/
theorem prejob_open_failure_counterexample :
    mainPreJobPhase (Except.ok ["fr"]) "en" (Except.error (RunError.io "no such file")) =
      Except.error (RunError.io "no such file") ∧
    Except.ok ["fr"] ≠ (Except.error (RunError.io "no such file") : Except RunError (List String)) := by
  refine ⟨rfl, ?_⟩
  simp

/-- The spawn loop aborts only because an input-file open failed. -/
theorem spawnLoop_error (sourceLanguageCode : String) (openFile : Except RunError Unit) (e : RunError) :
    ∀ codes, spawnLoop sourceLanguageCode openFile codes = Except.error e → openFile = Except.error e
  | [], h => absurd h (by simp [spawnLoop])
  | c :: rest, h => by
    revert h
    simp only [spawnLoop]
    by_cases hauto : c == "auto"
    · simp only [hauto, if_pos rfl]
      exact spawnLoop_error sourceLanguageCode openFile e rest
    · simp only [hauto, Bool.false_eq_true, if_false]
      by_cases hsrc : c == sourceLanguageCode
      · simp only [hsrc, if_pos rfl]
        exact spawnLoop_error sourceLanguageCode openFile e rest
      · simp only [hsrc, Bool.false_eq_true, if_false]
        cases openFile with
        | error e0 => intro h; injection h with h; rw [h]
        | ok _ =>
          cases hrest : spawnLoop sourceLanguageCode (Except.ok ()) rest with
          | ok spawned => intro h; exact absurd h (by simp)
          | error e1 =>
            intro h
            injection h with h
            subst h
            exact spawnLoop_error sourceLanguageCode (Except.ok ()) e1 rest hrest

/-- C7 amended: before any translation job starts, the run can be aborted
for exactly two reasons — the handshake failed, or the per-language
`File::open` of the input document (main.rs:89) failed; in particular a
handshake failure always aborts the run immediately. -/
theorem prejob_failure_causes (handshake : Except RunError (List String)) (sourceLanguageCode : String)
    (openFile : Except RunError Unit) (e : RunError)
    (h : mainPreJobPhase handshake sourceLanguageCode openFile = Except.error e) :
    (handshake = Except.error e ∨ openFile = Except.error e) ∧
    mainPreJobPhase (Except.error e) sourceLanguageCode openFile = Except.error e := by
  refine ⟨?_, rfl⟩
  cases hh : handshake with
  | error e0 =>
    left
    rw [hh] at h
    simpa [mainPreJobPhase] using h
  | ok codes =>
    right
    rw [hh] at h
    simp only [mainPreJobPhase] at h
    exact spawnLoop_error sourceLanguageCode openFile e codes h

/-- Witness for C7 amended: a successful handshake for ["fr"] with a
failing input-file open yields that open failure, and it is attributed to
the open. -/
theorem prejob_failure_causes_witness :
    ((Except.ok ["fr"] : Except RunError (List String)) = Except.error (RunError.io "no such file") ∨
      (Except.error (RunError.io "no such file") : Except RunError Unit) = Except.error (RunError.io "no such file")) ∧
    mainPreJobPhase (Except.error (RunError.io "no such file")) "en" (Except.error (RunError.io "no such file")) =
      Except.error (RunError.io "no such file") :=
  prejob_failure_causes (Except.ok ["fr"]) "en" (Except.error (RunError.io "no such file"))
    (RunError.io "no such file") rfl

/-- When every input-file open succeeds, the spawn loop spawns exactly
the filtered target-language list. -/
theorem spawnLoop_ok_targets (sourceLanguageCode : String) : ∀ codes, spawnLoop sourceLanguageCode (Except.ok ()) codes = Except.ok (targetLanguages sourceLanguageCode codes)
  | [] => rfl
  | c :: rest => by
    have ih := spawnLoop_ok_targets sourceLanguageCode rest
    by_cases hauto : c == "auto"
    · simp [spawnLoop, targetLanguages, List.filter_cons, hauto, ih]
    · by_cases hsrc : c == sourceLanguageCode
      · simp [spawnLoop, targetLanguages, List.filter_cons, hauto, hsrc, ih]
      · simp [spawnLoop, targetLanguages, List.filter_cons, hauto, hsrc, ih]

/-- C2 counterexample: a handshake list containing "fr" twice (source
"en") starts a job for "fr" twice — the spawned job list is not
duplicate-free — refuting "no language is processed twice" for arbitrary
handshake lists. -/
theorem fanout_duplicate_counterexample :
    targetLanguages "en" ["fr", "fr"] = ["fr", "fr"] ∧
    List.count "fr" (targetLanguages "en" ["fr", "fr"]) = 2 ∧
    ¬ (targetLanguages "en" ["fr", "fr"]).Nodup := by
  refine ⟨rfl, rfl, ?_⟩
  decide

/-- C2 amended: when the handshake list is duplicate-free, the jobs
spawned (with every input-file open succeeding) are exactly the handshake
list minus the "auto" sentinel and the source language, each language at
most once. -/
theorem fanout_target_set (sourceLanguageCode : String) (codes : List String) (hnd : codes.Nodup) :
    spawnLoop sourceLanguageCode (Except.ok ()) codes = Except.ok (targetLanguages sourceLanguageCode codes) ∧
    (targetLanguages sourceLanguageCode codes).Nodup ∧
    ∀ c, c ∈ targetLanguages sourceLanguageCode codes ↔ c ∈ codes ∧ c ≠ "auto" ∧ c ≠ sourceLanguageCode := by
  refine ⟨spawnLoop_ok_targets sourceLanguageCode codes, hnd.filter _, ?_⟩
  intro c
  simp [targetLanguages, List.mem_filter, and_assoc]

/-- Witness for C2 amended at the spec's own example: languages
{auto, en, fr, de} with source "en" spawn exactly {fr, de}. -/
theorem fanout_target_set_witness :
    spawnLoop "en" (Except.ok ()) ["auto", "en", "fr", "de"] = Except.ok (targetLanguages "en" ["auto", "en", "fr", "de"]) ∧
    (targetLanguages "en" ["auto", "en", "fr", "de"]).Nodup ∧
    ("fr" ∈ targetLanguages "en" ["auto", "en", "fr", "de"] ↔
      "fr" ∈ ["auto", "en", "fr", "de"] ∧ "fr" ≠ "auto" ∧ "fr" ≠ "en") :=
  ⟨(fanout_target_set "en" ["auto", "en", "fr", "de"] (by decide)).1,
    (fanout_target_set "en" ["auto", "en", "fr", "de"] (by decide)).2.1,
    (fanout_target_set "en" ["auto", "en", "fr", "de"] (by decide)).2.2 "fr"⟩

/-- C9 counterexample: a handshake list without "auto" and without the
source language — here ["fr", "de"] with source "en" — processes 2 target
languages, yet `main` reports `len - 2 = 0` completed translations. -/
theorem reported_count_counterexample :
    processedCount "en" ["fr", "de"] = 2 ∧
    reportedCount ["fr", "de"] = 0 ∧
    reportedCount ["fr", "de"] ≠ processedCount "en" ["fr", "de"] := by
  refine ⟨rfl, rfl, ?_⟩
  decide

/-- Splitting the handshake list by the skip conditions of `main`: every
code is either spawned, equal to "auto", or equal to the source language
(when the source is not "auto" the three cases are disjoint). -/
theorem processed_add_counts (sourceLanguageCode : String) (hne : sourceLanguageCode ≠ "auto") :
    ∀ codes : List String, processedCount sourceLanguageCode codes + codes.count "auto" + codes.count sourceLanguageCode = codes.length
  | [] => rfl
  | c :: rest => by
    have ih := processed_add_counts sourceLanguageCode hne rest
    simp only [processedCount, targetLanguages] at ih ⊢
    by_cases hauto : c = "auto"
    · subst hauto
      have hs : ¬ ("auto" = sourceLanguageCode) := fun h => hne h.symm
      simp only [List.filter_cons, List.count_cons, List.length_cons]
      simp [hs]
      omega
    · by_cases hsrc : c = sourceLanguageCode
      · subst hsrc
        simp only [List.filter_cons, List.count_cons, List.length_cons]
        simp [hauto]
        omega
      · simp only [List.filter_cons, List.count_cons, List.length_cons]
        simp [hauto, hsrc, Ne.symm hauto, Ne.symm hsrc]
        omega

/-- C9 amended: `main` always reports `len - 2` completed translations;
whenever the handshake list satisfies the condition the code assumes —
it contains the "auto" sentinel exactly once and the (non-"auto") source
language exactly once — this reported count equals the number of target
languages actually processed.  (The counterexample shows the two can
differ when the condition fails.) -/
theorem reported_count_correct (sourceLanguageCode : String) (codes : List String)
    (hne : sourceLanguageCode ≠ "auto")
    (hauto : codes.count "auto" = 1) (hsrc : codes.count sourceLanguageCode = 1) :
    reportedCount codes = processedCount sourceLanguageCode codes := by
  have h := processed_add_counts sourceLanguageCode hne codes
  rw [hauto, hsrc] at h
  simp only [reportedCount]
  omega

/-- Witness for C9 amended: languages {auto, en, fr, de} with source
"en" — two processed, `4 - 2 = 2` reported. -/
theorem reported_count_correct_witness :
    reportedCount ["auto", "en", "fr", "de"] = processedCount "en" ["auto", "en", "fr", "de"] :=
  reported_count_correct "en" ["auto", "en", "fr", "de"] (by decide) (by decide) (by decide)
